import Mathlib

/-!
# Verification of the `flag` configuration-resolution library

This file is a shallow embedding, in Lean 4, of the core of the
`bartdeboer/flag` Go package: the command-line tokenizer (`ParseArgs` in
`args.go`) and the field-assignment engine and resolution pipeline
(`SetField`, `SetDefaults`, `ParseEnv`, the flags pass and `ParseAll` in
the flags source file), together with theorems settling the frozen claims
about the package's specification.

Modelling conventions:
* Go strings are modelled as `List Char` (all inputs of interest are
  ASCII, so Go's byte-indexing and rune iteration agree with `List Char`).
* Go maps from string to string are modelled as association lists with
  unique keys: assignment replaces the entry for an existing key and
  appends otherwise, and lookup returns the unique entry.
* Machine integers are modelled as `Int`/`Nat` with explicit range checks
  and two's-complement wrapping (`% 2^w`) where Go truncates.
* Fallible operations return `Except`/`Option`; a Go runtime panic is a
  distinguished `panicked` outcome, separate from a returned error.
* Writing help text to standard output is modelled as a boolean
  "help was rendered" flag plus a pure function computing the help lines.
-/

set_option maxHeartbeats 1000000

/-- A Go string, as a list of characters. -/
abbrev GoStr := List Char

/-- The characters of a Lean string literal, used to write Go strings. -/
def chars (s : String) : GoStr := s.data

/-- The flag mapping  `map[string]string`: an association list with unique
keys (assignment replaces an existing key, lookup finds the unique entry). -/
abbrev FlagMap := List (GoStr × GoStr)

/-- The process environment, an injected read-only key-value collaborator. -/
abbrev EnvMap := List (GoStr × GoStr)

/-- `strings.HasPrefix s "-"`. -/
def startsWithDash : GoStr → Bool
  | '-' :: _ => true
  | _ => false

/-- `strings.HasPrefix s "--"`. -/
def startsWithDashDash : GoStr → Bool
  | '-' :: '-' :: _ => true
  | _ => false

/-- `strings.SplitN s "=" 2` for a string known to contain `'='`:
split at the first `'='` into the part before and the part after. -/
def splitFirstEq : GoStr → GoStr × GoStr
  | [] => ([], [])
  | c :: cs =>
    if c = '=' then ([], cs)
    else
      let p := splitFirstEq cs
      (c :: p.1, p.2)

/-- Lookup in the modelled Go map (keys are unique, so the first match is
the entry). `flags[k]` together with the `exists` boolean. -/
def lookupFlag : FlagMap → GoStr → Option GoStr
  | [], _ => none
  | (k, v) :: rest, key => if k = key then some v else lookupFlag rest key

/-- Go map assignment `flags[k] = v`: replace the entry for `k` if present,
otherwise add one. -/
def insertFlag : FlagMap → GoStr → GoStr → FlagMap
  | [], k, v => [(k, v)]
  | (k', v') :: rest, k, v =>
    if k' = k then (k, v) :: rest else (k', v') :: insertFlag rest k v

/-- A sequence of Go map assignments, performed left to right. -/
def insertAll : FlagMap → List (GoStr × GoStr) → FlagMap
  | fl, [] => fl
  | fl, (k, v) :: rest => insertAll (insertFlag fl k v) rest

/-- What one iteration of the `ParseArgs` loop produces: either one
positional argument, or a list of flag-map assignments. -/
inductive StepOut where
  | posTok (t : GoStr)
  | flagTok (assigns : List (GoStr × GoStr))
deriving DecidableEq, Repr

/-- One iteration of the tokenizer loop of `ParseArgs` (`args.go`): given
the current token `arg` and the remaining tokens `rest`, classify `arg`
exactly as the Go code does and report the produced output together with
how many extra tokens (0 or 1) are consumed beyond `arg` itself. -/
def tokStep (arg : GoStr) (rest : List GoStr) : StepOut × Nat :=
  let nextArgIsValue : Bool :=
    match rest with
    | [] => false
    | next :: _ => !startsWithDash next
  let nextVal : GoStr :=
    match rest with
    | [] => []
    | next :: _ => next
  if startsWithDashDash arg then
    -- key := arg[2:]
    let key := arg.drop 2
    if key.contains '=' then
      -- Handle --key=value
      let p := splitFirstEq key
      (.flagTok [(p.1, p.2)], 0)
    else if nextArgIsValue then
      -- Handle --key value
      (.flagTok [(key, nextVal)], 1)
    else
      -- Handle --key
      (.flagTok [(key, [])], 0)
  else if startsWithDash arg ∧ arg.length > 1 then
    if arg.length = 2 ∨ (arg.drop 2).contains '=' then
      -- Handle -k value or -k=value
      if (arg.drop 2).contains '=' then
        let p := splitFirstEq (arg.drop 2)
        (.flagTok [(p.1, p.2)], 0)
      else if nextArgIsValue then
        (.flagTok [((arg.drop 1).take 1, nextVal)], 1)
      else
        (.flagTok [((arg.drop 1).take 1, [])], 0)
    else
      -- Handle combined flags like -abc
      (.flagTok ((arg.drop 1).map (fun c => ([c], ([] : GoStr)))), 0)
  else
    -- Positional arguments
    (.posTok arg, 0)

/-- The tokenizer loop of `ParseArgs` (`args.go`), with the positional
accumulator and the flag map threaded through.  Consuming the extra token
of a `--key value` / `-k value` form is the `i++` skip in the source. -/
def parseLoop : List GoStr → List GoStr → FlagMap → List GoStr × FlagMap
  | [], pos, fl => (pos, fl)
  | arg :: rest, pos, fl =>
    match tokStep arg rest with
    | (.posTok t, _) => parseLoop rest (pos ++ [t]) fl
    | (.flagTok as, 0) => parseLoop rest pos (insertAll fl as)
    | (.flagTok as, _ + 1) =>
      match rest with
      | [] => parseLoop ([] : List GoStr) pos (insertAll fl as)
      | _ :: rest2 => parseLoop rest2 pos (insertAll fl as)

/-- `ParseArgs` (`args.go`): parses out positional arguments, flags and
shorthand flags from the token sequence. -/
def ParseArgs (args : List GoStr) : List GoStr × FlagMap :=
  parseLoop args [] []

/-- One step of the tokenizer seen as a consumption record: the contiguous
group of tokens the loop iteration consumed, and the output it produced. -/
structure TokChunk where
  consumed : List GoStr
  out : StepOut
deriving DecidableEq, Repr

/-- The decomposition of a token sequence into the consumption records of
the successive iterations of the `ParseArgs` loop. -/
def chunksOf : List GoStr → List TokChunk
  | [] => []
  | arg :: rest =>
    match tokStep arg rest with
    | (.posTok t, _) => ⟨[arg], .posTok t⟩ :: chunksOf rest
    | (.flagTok as, 0) => ⟨[arg], .flagTok as⟩ :: chunksOf rest
    | (.flagTok as, _ + 1) =>
      match rest with
      | [] => ⟨[arg], .flagTok as⟩ :: chunksOf ([] : List GoStr)
      | next :: rest2 => ⟨[arg, next], .flagTok as⟩ :: chunksOf rest2

/-- Concatenation of the consumed token groups. -/
def joinChunks : List TokChunk → List GoStr
  | [] => []
  | c :: cs => c.consumed ++ joinChunks cs

/-- The positional arguments produced by a chunk list, in order. -/
def chunkPositionals : List TokChunk → List GoStr
  | [] => []
  | c :: cs =>
    match c.out with
    | .posTok t => t :: chunkPositionals cs
    | .flagTok _ => chunkPositionals cs

/-- The flag-map assignments produced by a chunk list, in order. -/
def chunkAssigns : List TokChunk → List (GoStr × GoStr)
  | [] => []
  | c :: cs =>
    (match c.out with
     | .posTok _ => []
     | .flagTok as => as) ++ chunkAssigns cs

/-! ## Field coercion engine (`SetField`) -/

/-- Error cause of `strconv.ParseInt` / `ParseUint`: a malformed literal
(`ErrSyntax`) or a literal outside the bit width (`ErrRange`). -/
inductive IntErr where
  | malformed
  | range
deriving DecidableEq, Repr

/-- The decimal value of a nonempty all-digit string, `none` otherwise. -/
def digitsToNat : GoStr → Option Nat
  | [] => none
  | [c] => if c.isDigit then some (c.toNat - '0'.toNat) else none
  | c :: cs =>
    if c.isDigit then
      match digitsToNat cs with
      | none => none
      | some m => some ((c.toNat - '0'.toNat) * 10 ^ cs.length + m)
    else none

/-- `strconv.ParseInt(s, 10, 64)`: an optional sign followed by decimal
digits, rejected with `range` when the value does not fit a 64-bit signed
integer.  (Digit-separating underscores are only accepted by Go for base
0, not base 10, so they are rejected here too.) -/
def goParseInt64 (s : GoStr) : Except IntErr Int :=
  match s with
  | [] => .error .malformed
  | c :: rest =>
    let neg : Bool := c = '-'
    let digits : GoStr := if c = '-' ∨ c = '+' then rest else s
    match digitsToNat digits with
    | none => .error .malformed
    | some m =>
      let n : Int := if neg then -(m : Int) else (m : Int)
      if n < -(2 ^ 63) ∨ 2 ^ 63 - 1 < n then .error .range else .ok n

/-- `strconv.ParseUint(s, 10, 64)`: decimal digits with no sign, rejected
with `range` when the value does not fit 64 unsigned bits. -/
def goParseUint64 (s : GoStr) : Except IntErr Nat :=
  match digitsToNat s with
  | none => .error .malformed
  | some m => if 2 ^ 64 - 1 < m then .error .range else .ok m

/-- `strconv.ParseBool`: the exact accepted literal set. -/
def goParseBool (s : GoStr) : Option Bool :=
  if s = chars "1" ∨ s = chars "t" ∨ s = chars "T" ∨ s = chars "true" ∨ s = chars "TRUE" ∨
      s = chars "True" then
    some true
  else if s = chars "0" ∨ s = chars "f" ∨ s = chars "F" ∨ s = chars "false" ∨
      s = chars "FALSE" ∨ s = chars "False" then
    some false
  else none

/-- Helper for `goFloatSyntaxOK`: a nonempty digit string. -/
def allDigits (l : GoStr) : Bool := !l.isEmpty && l.all Char.isDigit

/-- Helper for `goFloatSyntaxOK`: `digits`, `digits.digits`, `digits.` or
`.digits` (at most one dot, digits on at least one side). -/
def mantissaOK (l : GoStr) : Bool :=
  if l.contains '.' then
    let intPart := l.takeWhile (fun c => c ≠ '.')
    let fracPart := (l.dropWhile (fun c => c ≠ '.')).tail
    !fracPart.contains '.' && intPart.all Char.isDigit && fracPart.all Char.isDigit &&
      !(intPart.isEmpty && fracPart.isEmpty)
  else allDigits l

/-- Acceptance of `strconv.ParseFloat(s, 64)` for decimal literals: an
optional sign, a mantissa and an optional decimal exponent, or one of the
infinity/NaN spellings.  (Hexadecimal float literals and Go 1.13 digit
underscores are not modelled; no claim depends on them, and the claims
about floats only distinguish acceptance from rejection, so the numeric
value of an accepted literal is abstracted to the literal itself.) -/
def goFloatSyntaxOK (s : GoStr) : Bool :=
  let lower := s.map Char.toLower
  if lower = chars "inf" ∨ lower = chars "+inf" ∨ lower = chars "-inf" ∨
      lower = chars "infinity" ∨ lower = chars "+infinity" ∨ lower = chars "-infinity" ∨
      lower = chars "nan" then
    true
  else
    let t : GoStr :=
      match s with
      | c :: rest => if c = '+' ∨ c = '-' then rest else s
      | [] => []
    if t.contains 'e' ∨ t.contains 'E' then
      let mant := t.takeWhile (fun c => c ≠ 'e' ∧ c ≠ 'E')
      let expPart := (t.dropWhile (fun c => c ≠ 'e' ∧ c ≠ 'E')).tail
      let expDigits : GoStr :=
        match expPart with
        | c :: rest => if c = '+' ∨ c = '-' then rest else expPart
        | [] => []
      mantissaOK mant && allDigits expDigits
    else mantissaOK t

/-- `strings.Split(value, ",")`: split on every comma, keeping empty
segments; the empty string yields one empty segment. -/
def splitComma : GoStr → List GoStr
  | [] => [[]]
  | c :: cs =>
    if c = ',' then [] :: splitComma cs
    else
      match splitComma cs with
      | h :: t => (c :: h) :: t
      | [] => [[c]]

/-- Two's-complement truncation of an integer to `w` bits, the semantics
of `reflect.Value.SetInt` into a `w`-bit signed field (`int8(x)` etc.,
which Go converts without any range check). -/
def wrapInt (w : Nat) (n : Int) : Int :=
  (n + 2 ^ (w - 1)) % 2 ^ w - 2 ^ (w - 1)

/-- Truncation of a natural number to `w` bits, the semantics of
`reflect.Value.SetUint` into a `w`-bit unsigned field. -/
def wrapUint (w : Nat) (n : Nat) : Nat := n % 2 ^ w

/-- The value slot of one configuration field, by `reflect.Kind`.  The
constructor records the declared bit width where Go declares one.
`custom` models a field of pointer type implementing
`encoding.TextUnmarshaler` (the pointed-to state is the last decoded
text); `ptrBasic` models a pointer field whose type does not implement
it.  Unexported (non-settable) fields and non-struct configs are outside
the model. -/
inductive GoValue where
  | str (s : GoStr)
  | int (width : Nat) (n : Int)
  | uint (width : Nat) (n : Nat)
  | bool (b : Bool)
  | float (lit : GoStr)
  | strList (l : List GoStr)
  | sliceOther
  | ptrBasic (elemName : GoStr)
  | custom (elemName : GoStr) (decoded : Option GoStr)
deriving DecidableEq, Repr

/-- The error returned by `SetField`, by source branch. -/
inductive FieldErr where
  | intErr (e : IntErr)
  | boolErr
  | floatErr
  | sliceUnsupported
  | customErr
  | unsupported
deriving DecidableEq, Repr

/-- Outcome of `SetField`: a successfully assigned value, a returned
error, or a Go runtime panic. -/
inductive FieldRes where
  | ok (v : GoValue)
  | fieldErr (e : FieldErr)
  | panicked
deriving DecidableEq, Repr

/-- `SetField(field, value, exists)`: sets the field based on its kind and
the string provided.  `dec` is the injected `UnmarshalText` capability of
the custom pointer type (`none` = the unmarshaler returns an error).

The `custom` success branch is modelled as a panic: the source runs
`unmarshaler := reflect.New(field.Type().Elem()).Interface().(TextUnmarshaler)`
and then `field.Set(reflect.ValueOf(unmarshaler).Elem())`, which passes a
value of the pointed-to type `T` to a slot of pointer type `*T`;
`reflect.Value.Set` panics on that type mismatch, so a successful decode
never reaches a successful assignment. -/
def SetField (dec : GoStr → Option GoStr) (field : GoValue) (value : GoStr)
    (exists_ : Bool) : FieldRes :=
  match field with
  | .str _ => .ok (.str value)
  | .int w _ =>
    match goParseInt64 value with
    | .error e => .fieldErr (.intErr e)
    | .ok n => .ok (.int w (wrapInt w n))
  | .uint w _ =>
    match goParseUint64 value with
    | .error e => .fieldErr (.intErr e)
    | .ok n => .ok (.uint w (wrapUint w n))
  | .bool _ =>
    if exists_ = true ∧ value = [] then .ok (.bool true)
    else
      match goParseBool value with
      | none => .fieldErr .boolErr
      | some b => .ok (.bool b)
  | .float _ =>
    if goFloatSyntaxOK value then .ok (.float value) else .fieldErr .floatErr
  | .strList _ => .ok (.strList (splitComma value))
  | .sliceOther => .fieldErr .sliceUnsupported
  | .ptrBasic _ => .fieldErr .unsupported
  | .custom _ _ =>
    match dec value with
    | none => .fieldErr .customErr
    | some _ => .panicked

/-- A decoder standing in for "no custom field is exercised". -/
def dec0 : GoStr → Option GoStr := fun _ => none

/-! ## Resolution pipeline (`SetDefaults`, `ParseEnv`, flags pass, `ParseAll`) -/

/-- The metadata of one struct field: its Go identifier and its tags.  An
absent tag is the empty string, exactly as `reflect.StructTag.Get`
reports it. -/
structure FieldDesc where
  name : GoStr
  tagShort : GoStr
  tagFlag : GoStr
  tagEnv : GoStr
  tagDefault : GoStr
  tagUsage : GoStr
deriving DecidableEq, Repr

/-- One configuration field: its descriptor and its current value slot. -/
abbrev CfgField := FieldDesc × GoValue

/-- Modelled from the external name-casing collaborator
(`github.com/bartdeboer/words`, outside this repository): helper of
`toKebabCase`, emitting `-` before each interior upper-case letter. -/
def kebabAux : GoStr → GoStr
  | [] => []
  | c :: rest => if c.isUpper then '-' :: c.toLower :: kebabAux rest else c :: kebabAux rest

/-- Modelled from the external name-casing collaborator:
`words.ToKebabCase`, e.g. `PortNumber` becomes `port-number`. -/
def toKebabCase : GoStr → GoStr
  | [] => []
  | c :: rest => c.toLower :: kebabAux rest

/-- Modelled from the external name-casing collaborator: helper of
`toConstantCase`, emitting `_` before each interior upper-case letter. -/
def constAux : GoStr → GoStr
  | [] => []
  | c :: rest => if c.isUpper then '_' :: c :: constAux rest else c.toUpper :: constAux rest

/-- Modelled from the external name-casing collaborator:
`words.ToConstantCase`, e.g. `HostName` becomes `HOST_NAME`. -/
def toConstantCase : GoStr → GoStr
  | [] => []
  | c :: rest => c.toUpper :: constAux rest

/-- The environment-variable name of a field (`ParseEnv`): the `env` tag,
or the constant-case of the identifier when the tag is absent. -/
def envName (fd : FieldDesc) : GoStr :=
  if fd.tagEnv = [] then toConstantCase fd.name else fd.tagEnv

/-- The long flag name of a field (flags pass): the `flag` tag, or the
kebab-case of the identifier when the tag is absent. -/
def longFlagName (fd : FieldDesc) : GoStr :=
  if fd.tagFlag = [] then toKebabCase fd.name else fd.tagFlag

/-- `os.LookupEnv` over the injected environment. -/
def lookupEnv : EnvMap → GoStr → Option GoStr
  | [], _ => none
  | (k, v) :: rest, key => if k = key then some v else lookupEnv rest key

/-- The error a pipeline pass propagates, carrying the name the source
interpolates into the message: `error setting default for field <name>`,
`error setting environment variable <name>`, `error parsing flag
--<name>`. -/
inductive PipeError where
  | defaultErr (fieldName : GoStr) (e : FieldErr)
  | envErr (environmentName : GoStr) (e : FieldErr)
  | flagErr (flagName : GoStr) (e : FieldErr)
deriving DecidableEq, Repr

/-- Result of one pipeline pass over a configuration record: the record
after the pass (fields already set before a failure keep their new
values), whether usage text was rendered to standard output, the
propagated error, and whether a Go panic escaped. -/
structure PassResult where
  cfg : List CfgField
  help : Bool
  err : Option PipeError
  panicked : Bool
deriving DecidableEq, Repr

/-- The loop body shared by the three passes, processing one field.
`hit` is the selected raw value for this field (`none` = the pass skips
the field: an empty `default` tag, an unset environment variable, or
neither flag key present); `exists_` is the presence bit passed to
`SetField` (`false` only in the defaults pass); `mkErr` wraps the
coercion failure in the pass's error message (naming the field, the
environment variable, or the long flag); `helpOnErr` is whether the pass
calls `PrintDefaults` before propagating (the environment and flags
passes do, the defaults pass does not).  `r` is the result of the pass on
the remaining fields and `restCfg` those fields unprocessed, used when
the pass stops at this field: on a returned error or a panic the loop
aborts, so the remaining fields keep their current values. -/
def passField (dec : GoStr → Option GoStr) (exists_ : Bool) (mkErr : FieldErr → PipeError)
    (helpOnErr : Bool) (hit : Option GoStr) (fd : FieldDesc) (v : GoValue)
    (r : PassResult) (restCfg : List CfgField) : PassResult :=
  match hit with
  | none => ⟨(fd, v) :: r.cfg, r.help, r.err, r.panicked⟩
  | some fv =>
    match SetField dec v fv exists_ with
    | .ok v2 => ⟨(fd, v2) :: r.cfg, r.help, r.err, r.panicked⟩
    | .fieldErr e => ⟨(fd, v) :: restCfg, helpOnErr, some (mkErr e), false⟩
    | .panicked => ⟨(fd, v) :: restCfg, false, none, true⟩

/-- The common field loop of the three passes: process the fields in
declaration order, where `hitOf` selects the pass's raw value for a field
and `mkErrOf` builds the pass's error. -/
def runPass (dec : GoStr → Option GoStr) (exists_ : Bool) (hitOf : FieldDesc → Option GoStr)
    (mkErrOf : FieldDesc → FieldErr → PipeError) (helpOnErr : Bool) :
    List CfgField → PassResult
  | [] => ⟨[], false, none, false⟩
  | (fd, v) :: rest =>
    passField dec exists_ (mkErrOf fd) helpOnErr (hitOf fd) fd v
      (runPass dec exists_ hitOf mkErrOf helpOnErr rest) rest

/-- `SetDefaults`: for each field with a nonempty `default` tag, coerce
the tag value with `exists = false`; the first failure aborts the pass
and propagates, without rendering usage text, an error naming the
field. -/
def SetDefaults (dec : GoStr → Option GoStr) : List CfgField → PassResult :=
  runPass dec false (fun fd => if fd.tagDefault = [] then none else some fd.tagDefault)
    (fun fd => .defaultErr fd.name) false

/-- `ParseEnv`: for each field, look up its environment-variable name; if
unset skip the field, otherwise coerce with `exists = true`; the first
failure renders usage text and propagates an error naming the
environment variable. -/
def ParseEnv (dec : GoStr → Option GoStr) (env : EnvMap) : List CfgField → PassResult :=
  runPass dec true (fun fd => lookupEnv env (envName fd)) (fun fd => .envErr (envName fd)) true

/-- The flags pass (named `SetFlags` by the tests; the per-field loop of
`ParseArgs(config, args)` in the flags source): for each field, look up
the `short` tag key in the flag mapping first, then the long key; skip
the field when neither is present, otherwise coerce with `exists = true`;
the first failure renders usage text and propagates an error naming the
long flag. -/
def SetFlags (dec : GoStr → Option GoStr) (flags : FlagMap) : List CfgField → PassResult :=
  runPass dec true
    (fun fd =>
      match lookupFlag flags fd.tagShort with
      | some fv => some fv
      | none => lookupFlag flags (longFlagName fd))
    (fun fd => .flagErr (longFlagName fd)) true

/-- The `--help` / `-h` scan of `ParseAll`. -/
def hasHelpToken : List GoStr → Bool
  | [] => false
  | a :: rest => if a = chars "--help" ∨ a = chars "-h" then true else hasHelpToken rest

/-- Result of `ParseAll`: the record, whether usage text was rendered,
the returned positional arguments and flag mapping (`none` models a `nil`
return / the mapping never being produced), the error, and whether a
panic escaped. -/
structure ParseAllResult where
  cfg : List CfgField
  help : Bool
  positionals : Option (List GoStr)
  flags : Option FlagMap
  err : Option PipeError
  panicked : Bool
deriving DecidableEq, Repr

/-- `ParseAll`: defaults pass, environment pass, then the `--help` / `-h`
scan (render usage and return with no positionals, no flags and no error
when found), then tokenize the arguments and run the flags pass. -/
def ParseAll (dec : GoStr → Option GoStr) (env : EnvMap) (cfg : List CfgField)
    (args : List GoStr) : ParseAllResult :=
  let d := SetDefaults dec cfg
  if d.panicked then ⟨d.cfg, d.help, none, none, none, true⟩
  else
    match d.err with
    | some e => ⟨d.cfg, d.help, none, none, some e, false⟩
    | none =>
      let ev := ParseEnv dec env d.cfg
      if ev.panicked then ⟨ev.cfg, d.help || ev.help, none, none, none, true⟩
      else
        match ev.err with
        | some e => ⟨ev.cfg, d.help || ev.help, none, none, some e, false⟩
        | none =>
          if hasHelpToken args then ⟨ev.cfg, true, none, none, none, false⟩
          else
            let pr := ParseArgs args
            let r := SetFlags dec pr.2 ev.cfg
            if r.panicked then ⟨r.cfg, d.help || ev.help || r.help, none, none, none, true⟩
            else
              match r.err with
              | some e => ⟨r.cfg, d.help || ev.help || r.help, none, none, some e, false⟩
              | none => ⟨r.cfg, d.help || ev.help || r.help, some pr.1, some pr.2, none, false⟩

/-! ## Usage renderer (`PrintDefaults`) -/

/-- The Go type name `reflect` reports for a field, as `PrintDefaults`
renders it: `"*" + field.Type.Elem().Name()` for pointer kinds, the plain
name otherwise (an unnamed slice type has the empty name). -/
def goTypeName : GoValue → GoStr
  | .str _ => chars "string"
  | .int w _ =>
    if w = 8 then chars "int8" else if w = 16 then chars "int16"
    else if w = 32 then chars "int32" else chars "int"
  | .uint w _ =>
    if w = 8 then chars "uint8" else if w = 16 then chars "uint16"
    else if w = 32 then chars "uint32" else chars "uint"
  | .bool _ => chars "bool"
  | .float _ => chars "float64"
  | .strList _ => []
  | .sliceOther => []
  | .ptrBasic nm => '*' :: nm
  | .custom nm _ => '*' :: nm

/-- The three columns `PrintDefaults` computes for one field: the short
part (`-x`, or two spaces when the `short` tag is absent), the long part
(`--kebab-name typename`), and the usage text with the ` (default v)`
suffix, suppressed for the zero-looking defaults `""`, `"0"`, `"false"`
and `"\"\""`. -/
structure HelpEntry where
  shortPart : GoStr
  longPart : GoStr
  fullUsage : GoStr
deriving DecidableEq, Repr

/-- The help-page entry of one field, per `PrintDefaults`. -/
def helpEntry (fd : FieldDesc) (v : GoValue) : HelpEntry :=
  ⟨if fd.tagShort = [] then chars "  " else '-' :: fd.tagShort,
   chars "--" ++ toKebabCase fd.name ++ [' '] ++ goTypeName v,
   fd.tagUsage ++
     (if fd.tagDefault ≠ [] ∧ fd.tagDefault ≠ chars "0" ∧ fd.tagDefault ≠ chars "false" ∧
         fd.tagDefault ≠ chars "\"\"" then
        chars " (default " ++ fd.tagDefault ++ [')']
      else [])⟩

/-- Left-aligned padding to width `n`, the `%-*s` format verb. -/
def padRight (l : GoStr) (n : Nat) : GoStr := l ++ List.replicate (n - l.length) ' '

/-- The lines `PrintDefaults` writes to standard output: a `Usage:`
header, then one line per field with the long column padded to the
widest long part. -/
def printDefaultsLines (cfg : List CfgField) : List GoStr :=
  let entries := cfg.map (fun f => helpEntry f.1 f.2)
  let maxLen := entries.foldl (fun m e => max m e.longPart.length) 0
  chars "Usage:" ::
    entries.map (fun e =>
      chars "  " ++ e.shortPart ++ [' '] ++ padRight e.longPart maxLen ++ chars "  " ++
        e.fullUsage)

/-! ## Concrete fixtures used by witnesses -/

/-- An `UnmarshalText` capability that succeeds on every input. -/
def decId : GoStr → Option GoStr := fun s => some s

/-- An `UnmarshalText` capability that fails on every input. -/
def decFail : GoStr → Option GoStr := fun _ => none

/-- Field `PortNumber int` with tag `default:"8080"`. -/
def fdPortNumber : FieldDesc := ⟨chars "PortNumber", [], [], [], chars "8080", []⟩

/-- Field `HostName string` with tag `default:"localhost"`. -/
def fdHostName : FieldDesc := ⟨chars "HostName", [], [], [], chars "localhost", []⟩

/-- Field `LogLevel string` with tag `default:"info"`. -/
def fdLogLevel : FieldDesc := ⟨chars "LogLevel", [], [], [], chars "info", []⟩

/-- The three-field configuration record of the `ParseAll` test. -/
def cfgC4 : List CfgField :=
  [(fdPortNumber, .int 64 0), (fdHostName, .str []), (fdLogLevel, .str [])]

/-- The mocked environment of the `ParseAll` test. -/
def envC4 : EnvMap :=
  [(chars "PORT_NUMBER", chars "3000"), (chars "HOST_NAME", chars "example.com")]

/-- Field `PortNumber int` with tags `env:"PORT" default:"8080"`. -/
def fdPortC6 : FieldDesc := ⟨chars "PortNumber", [], [], chars "PORT", chars "8080", []⟩

/-- A one-field configuration with an int field defaulting to 8080. -/
def cfgC6 : List CfgField := [(fdPortC6, .int 64 0)]

/-- An environment carrying `PORT=3000`. -/
def envC6 : EnvMap := [(chars "PORT", chars "3000")]

/-- Field `PortNumber int` with tag `short:"p"`. -/
def fdPortC7 : FieldDesc := ⟨chars "PortNumber", chars "p", [], [], [], []⟩

/-- A flag mapping carrying both the short and the long key of
`fdPortC7`, with different values. -/
def flagsC7 : FlagMap := [(chars "p", chars "9090"), (chars "port-number", chars "7070")]

/-- A one-field configuration whose int field has default tag `abc`. -/
def cfgC8 : List CfgField := [(⟨chars "Timeout", [], [], [], chars "abc", []⟩, .int 64 0)]

/-- A one-field configuration with an int field matching `PORT`. -/
def cfgC8E : List CfgField := [(⟨chars "Timeout", [], [], chars "PORT", [], []⟩, .int 64 0)]

/-- An environment carrying a non-numeric `PORT`. -/
def envC8 : EnvMap := [(chars "PORT", chars "abc")]

/-- A one-field configuration with an int field named `Timeout`. -/
def cfgC8F : List CfgField := [(⟨chars "Timeout", [], [], [], [], []⟩, .int 64 0)]

/-- A flag mapping carrying a non-numeric `timeout`. -/
def flagsC8 : FlagMap := [(chars "timeout", chars "thirty")]

/-- Field `Timeout *int` with tags `usage:"Timeout in seconds" short:"t"`. -/
def fdTimeout : FieldDesc := ⟨chars "Timeout", chars "t", [], [], [], chars "Timeout in seconds"⟩

/-- The four-field configuration record of the `PrintDefaults` test. -/
def cfgPD : List CfgField :=
  [(⟨chars "PortNumber", chars "p", [], [], chars "8080", chars "Port to listen on"⟩,
      .int 64 8080),
   (⟨chars "HostName", [], [], [], chars "localhost", chars "Host address"⟩,
      .str (chars "localhost")),
   (⟨chars "Verbose", chars "v", [], [], [], chars "Verbose mode"⟩, .bool false),
   (fdTimeout, .ptrBasic (chars "int"))]

example : ParseArgs [chars "--key=value"] = ([], [(chars "key", chars "value")]) := by decide
example : ParseArgs [chars "command1", chars "command2"] =
    ([chars "command1", chars "command2"], []) := by decide
example : ParseArgs [chars "cmd", chars "-k", chars "value", chars "--long", chars "other",
    chars "end"] =
    ([chars "cmd", chars "end"], [(chars "k", chars "value"), (chars "long", chars "other")]) := by
  decide
example : ParseArgs [chars "-abc"] =
    ([], [(chars "a", []), (chars "b", []), (chars "c", [])]) := by decide
example : ParseArgs [chars "--key"] = ([], [(chars "key", [])]) := by decide
example : ParseArgs [chars "-k", chars "value"] = ([], [(chars "k", chars "value")]) := by decide
example : ParseArgs [chars "-k", chars "value", chars "--long=value2", chars "cmd",
    chars "--bool"] =
    ([chars "cmd"], [(chars "k", chars "value"), (chars "long", chars "value2"),
      (chars "bool", [])]) := by decide

/-- A positional step reproduces its own token and consumes nothing extra. -/
theorem tokStep_pos (arg : GoStr) (rest : List GoStr) (t : GoStr) (k : Nat)
    (h : tokStep arg rest = (.posTok t, k)) : t = arg ∧ k = 0 := by
  rcases rest with _ | ⟨next, rest2⟩ <;>
    simp only [tokStep] at h <;>
    split_ifs at h <;> simp_all

/-- A flag step performs at least one assignment, and consumes an extra
token only when a next token exists. -/
theorem tokStep_flag (arg : GoStr) (rest : List GoStr) (as : List (GoStr × GoStr)) (k : Nat)
    (h : tokStep arg rest = (.flagTok as, k)) :
    as ≠ [] ∧ (k = 0 ∨ (k = 1 ∧ rest ≠ [])) := by
  rcases arg with _ | ⟨a0, _ | ⟨a1, arg2⟩⟩ <;>
    rcases rest with _ | ⟨next, rest2⟩ <;>
      simp only [tokStep, startsWithDash, startsWithDashDash] at h <;>
      split_ifs at h <;> simp_all <;>
      (obtain ⟨ha, hk⟩ := h; subst ha; simp)

/-- Sequencing Go map assignments over an appended list. -/
theorem insertAll_append (a : List (GoStr × GoStr)) :
    ∀ (fl : FlagMap) (b : List (GoStr × GoStr)),
      insertAll fl (a ++ b) = insertAll (insertAll fl a) b := by
  induction a with
  | nil => intro fl b; rfl
  | cons hd tl ih => intro fl b; cases hd; simp [insertAll, ih]

/-- The consumption records of the tokenizer loop cover the input exactly:
concatenating the consumed groups gives back the token sequence. -/
theorem chunksOf_join : ∀ args, joinChunks (chunksOf args) = args := by
  intro args
  induction args using chunksOf.induct with
  | case1 => rfl
  | case2 arg rest t k h ih =>
    have := tokStep_pos arg rest t k h
    simp [chunksOf, h, joinChunks, ih]
  | case3 arg rest as h ih =>
    simp [chunksOf, h, joinChunks, ih]
  | case4 arg as n h ih =>
    simp [chunksOf, h, joinChunks]
  | case5 arg as n next rest2 h ih =>
    simp [chunksOf, h, joinChunks, ih]

/-- Shape of every consumption record: it consumes one or two tokens, a
positional record consumes exactly its own token and emits it unchanged,
and a flag record performs at least one assignment. -/
theorem chunksOf_shape : ∀ args, ∀ c ∈ chunksOf args,
    c.consumed ≠ [] ∧ c.consumed.length ≤ 2 ∧
    (∀ t, c.out = .posTok t → c.consumed = [t]) ∧
    (∀ as, c.out = .flagTok as → as ≠ []) := by
  intro args
  induction args using chunksOf.induct with
  | case1 => intro c hc; simp [chunksOf] at hc
  | case2 arg rest t k h ih =>
    intro c hc
    obtain ⟨ht, hk⟩ := tokStep_pos arg rest t k h
    subst ht
    rw [chunksOf, h] at hc
    rcases List.mem_cons.mp hc with hc | hc
    · subst hc; simp
    · exact ih c hc
  | case3 arg rest as h ih =>
    intro c hc
    obtain ⟨hne, _⟩ := tokStep_flag arg rest as 0 h
    rw [chunksOf, h] at hc
    rcases List.mem_cons.mp hc with hc | hc
    · subst hc
      refine ⟨by simp, by simp, by simp, ?_⟩
      intro as2 has2
      cases has2
      exact hne
    · exact ih c hc
  | case4 arg as n h ih =>
    intro c hc
    obtain ⟨hne, _⟩ := tokStep_flag arg [] as (n + 1) h
    rw [chunksOf, h] at hc
    rcases List.mem_cons.mp hc with hc | hc
    · subst hc
      refine ⟨by simp, by simp, by simp, ?_⟩
      intro as2 has2
      cases has2
      exact hne
    · exact ih c hc
  | case5 arg as n next rest2 h ih =>
    intro c hc
    obtain ⟨hne, _⟩ := tokStep_flag arg (next :: rest2) as (n + 1) h
    rw [chunksOf, h] at hc
    rcases List.mem_cons.mp hc with hc | hc
    · subst hc
      refine ⟨by simp, by simp, by simp, ?_⟩
      intro as2 has2
      cases has2
      exact hne
    · exact ih c hc

/-- The tokenizer loop computes exactly the outputs collected from the
consumption records. -/
theorem parseLoop_eq : ∀ args (pos : List GoStr) (fl : FlagMap),
    parseLoop args pos fl =
      (pos ++ chunkPositionals (chunksOf args), insertAll fl (chunkAssigns (chunksOf args))) := by
  intro args
  induction args using chunksOf.induct with
  | case1 => intro pos fl; simp [parseLoop, chunksOf, chunkPositionals, chunkAssigns, insertAll]
  | case2 arg rest t k h ih =>
    intro pos fl
    obtain ⟨ht, hk⟩ := tokStep_pos arg rest t k h
    subst ht
    rw [parseLoop, h, chunksOf, h]
    simp [chunkPositionals, chunkAssigns, ih]
  | case3 arg rest as h ih =>
    intro pos fl
    rw [parseLoop, h, chunksOf, h]
    simp [chunkPositionals, chunkAssigns, ih, insertAll_append]
  | case4 arg as n h ih =>
    intro pos fl
    rw [parseLoop, h, chunksOf, h]
    simp [parseLoop, chunksOf, chunkPositionals, chunkAssigns, insertAll_append, insertAll]
  | case5 arg as n next rest2 h ih =>
    intro pos fl
    rw [parseLoop, h, chunksOf, h]
    simp [chunkPositionals, chunkAssigns, ih, insertAll_append]

/-- Claim C2 (code bug): on the token `-k=value` the source splits
`arg[2:]` (that is, `=value`) at its first `=`, so the flag letter `k` is
lost: `ParseArgs` records `flags[""] = "value"`, and the key `k` is not in
the flag mapping at all — contrary to the claim that it yields
`flags["k"] = "value"`. -/
theorem C2_theorem :
    ParseArgs [chars "-k=value"] = ([], [(([] : GoStr), chars "value")]) ∧
    lookupFlag (ParseArgs [chars "-k=value"]).2 (chars "k") = none ∧
    lookupFlag (ParseArgs [chars "-k=value"]).2 ([] : GoStr) = some (chars "value") := by
  refine ⟨by decide, by decide, by decide⟩

/-- Claim C5 (counterexample): the claim says no token contributes to two
flag entries, which forces the number of output entries (positionals plus
flag-map entries) to be at most the number of input tokens; but the single
token `-abc` produces three flag-map entries. -/
theorem C5_counterexample :
    ParseArgs [chars "-abc"] = ([], [(chars "a", []), (chars "b", []), (chars "c", [])]) ∧
    ¬((ParseArgs [chars "-abc"]).1.length + (ParseArgs [chars "-abc"]).2.length ≤
        [chars "-abc"].length) := by
  refine ⟨by decide, by decide⟩

/-- Claim C5 (amended): for every sequence of argument tokens, the
tokenizer consumes the tokens in disjoint consecutive groups of one or two
tokens, each group contributing to exactly one of the two outputs: a
positional group is a single token appended verbatim to the positionals,
and a flag group performs one or more flag-map assignments (so a combined
shorthand token such as `-abc` may populate several single-letter
entries); no token is consumed by two groups and no token is dropped. -/
theorem C5_theorem : ∀ args : List GoStr,
    joinChunks (chunksOf args) = args ∧
    (∀ c ∈ chunksOf args,
      c.consumed ≠ [] ∧ c.consumed.length ≤ 2 ∧
      (∀ t, c.out = .posTok t → c.consumed = [t]) ∧
      (∀ as, c.out = .flagTok as → as ≠ [])) ∧
    ParseArgs args =
      (chunkPositionals (chunksOf args), insertAll [] (chunkAssigns (chunksOf args))) := by
  intro args
  refine ⟨chunksOf_join args, chunksOf_shape args, ?_⟩
  rw [ParseArgs, parseLoop_eq]
  simp

/-- Witness for C5 at a concrete input: the decomposition of
`["cmd", "-k", "value", "--long=x", "-ab"]` and the shape facts for its
first chunk. -/
theorem C5_witness :
    joinChunks (chunksOf [chars "cmd", chars "-k", chars "value", chars "--long=x",
        chars "-ab"]) =
      [chars "cmd", chars "-k", chars "value", chars "--long=x", chars "-ab"] ∧
    (TokChunk.mk [chars "cmd"] (.posTok (chars "cmd"))).consumed ≠ [] ∧
    ParseArgs [chars "cmd", chars "-k", chars "value", chars "--long=x", chars "-ab"] =
      (chunkPositionals (chunksOf [chars "cmd", chars "-k", chars "value", chars "--long=x",
          chars "-ab"]),
       insertAll [] (chunkAssigns (chunksOf [chars "cmd", chars "-k", chars "value",
          chars "--long=x", chars "-ab"]))) := by
  have h := C5_theorem [chars "cmd", chars "-k", chars "value", chars "--long=x", chars "-ab"]
  exact ⟨h.1, (h.2.1 ⟨[chars "cmd"], .posTok (chars "cmd")⟩ (by decide)).1, h.2.2⟩

/-! ## Coercion-engine theorems -/

example : SetField dec0 (GoValue.int 64 0) (chars "123") true = .ok (.int 64 123) := by decide
example : SetField dec0 (GoValue.int 64 0) (chars "99999999999999999999") true =
    .fieldErr (.intErr .range) := by decide
example : SetField dec0 (GoValue.bool false) (chars "true") true = .ok (.bool true) := by decide
example : SetField dec0 (GoValue.bool false) (chars "maybe") true = .fieldErr .boolErr := by
  decide
example : SetField dec0 (GoValue.str []) (chars "hello") true = .ok (.str (chars "hello")) := by
  decide
example : SetField dec0 (GoValue.float []) (chars "3.14159") true =
    .ok (.float (chars "3.14159")) := by decide
example : SetField dec0 (GoValue.float []) (chars "pi") true = .fieldErr .floatErr := by decide
example : SetField dec0 (GoValue.strList []) (chars "one,two,three") true =
    .ok (.strList [chars "one", chars "two", chars "three"]) := by decide

/-- Two's-complement truncation lands in the representable interval. -/
theorem wrapInt_bounds (w : Nat) (hw : 0 < w) (n : Int) :
    -(2 ^ (w - 1)) ≤ wrapInt w n ∧ wrapInt w n < 2 ^ (w - 1) := by
  have hsucc : w - 1 + 1 = w := Nat.succ_pred_eq_of_pos hw
  have hm : (2 : Int) ^ w = 2 ^ (w - 1) * 2 := by
    nth_rewrite 1 [← hsucc]
    rw [pow_succ]
  have h2 : (0 : Int) < 2 ^ w := by positivity
  have h3 : 0 ≤ (n + 2 ^ (w - 1)) % 2 ^ w := Int.emod_nonneg _ (ne_of_gt h2)
  have h4 : (n + 2 ^ (w - 1)) % 2 ^ w < 2 ^ w := Int.emod_lt_of_pos _ h2
  unfold wrapInt
  constructor <;> omega

/-- Two's-complement truncation is the identity on values that fit. -/
theorem wrapInt_eq_self (w : Nat) (hw : 0 < w) (n : Int)
    (h1 : -(2 ^ (w - 1)) ≤ n) (h2 : n < 2 ^ (w - 1)) : wrapInt w n = n := by
  have hsucc : w - 1 + 1 = w := Nat.succ_pred_eq_of_pos hw
  have hm : (2 : Int) ^ w = 2 ^ (w - 1) * 2 := by
    nth_rewrite 1 [← hsucc]
    rw [pow_succ]
  have h5 : (n + 2 ^ (w - 1)) % 2 ^ w = n + 2 ^ (w - 1) :=
    Int.emod_eq_of_lt (by omega) (by omega)
  unfold wrapInt
  omega

/-- Two's-complement truncation preserves the value modulo `2 ^ w`. -/
theorem wrapInt_congruent (w : Nat) (n : Int) : (2 ^ w : Int) ∣ n - wrapInt w n := by
  have h := Int.emod_add_ediv (n + 2 ^ (w - 1)) (2 ^ w)
  refine ⟨(n + 2 ^ (w - 1)) / 2 ^ w, ?_⟩
  unfold wrapInt
  linarith

/-- Claim C1 (counterexample): coercing the literal `"false"` into a
boolean field with `exists = true` assigns `false`, not `true`: presence
overrides the literal only when the raw value is empty. -/
theorem C1_counterexample :
    SetField dec0 (GoValue.bool true) (chars "false") true = .ok (.bool false) ∧
    SetField dec0 (GoValue.bool true) (chars "false") true ≠ .ok (.bool true) := by
  refine ⟨by decide, by decide⟩

/-- Claim C1 (amended): for every boolean field, coercion with
`wasExplicitlyPresent = true` and an empty raw value assigns `true`
(bare-flag semantics), while the literals `"false"` / `"true"` with
presence are parsed as literals and assign `false` / `true`. -/
theorem C1_theorem : ∀ (dec : GoStr → Option GoStr) (prev : Bool),
    SetField dec (.bool prev) [] true = .ok (.bool true) ∧
    SetField dec (.bool prev) (chars "false") true = .ok (.bool false) ∧
    SetField dec (.bool prev) (chars "true") true = .ok (.bool true) := by
  intro dec prev
  refine ⟨rfl, rfl, rfl⟩

/-- Claim C3 (counterexample): coercing `"300"` into an 8-bit signed or
unsigned field succeeds and stores the truncation `44` — the engine
parses at 64 bits regardless of the declared width and then truncates
silently, so the claim's "fails whenever the literal does not fit that
width; never silently truncates" is false. -/
theorem C3_counterexample :
    SetField dec0 (GoValue.int 8 0) (chars "300") false = .ok (.int 8 44) ∧
    SetField dec0 (GoValue.uint 8 0) (chars "300") false = .ok (.uint 8 44) ∧
    (44 : Int) ≠ 300 ∧ (44 : Nat) ≠ 300 := by
  refine ⟨by decide, by decide, by decide, by decide⟩

/-- Claim C3 (amended): for every signed or unsigned integer field,
coercion parses the raw string as a base-10 integer at 64 bits
regardless of the field's declared width, and fails with a
format/overflow error when the literal is malformed or does not fit 64
(signed or unsigned) bits — in particular `"99999999999999999999"`
always fails — but a value that fits 64 bits and not the field's
narrower declared width is silently truncated (two's complement for
signed fields, modular for unsigned ones) to that width; values that
fit the declared width are stored unchanged. -/
theorem C3_theorem : ∀ (dec : GoStr → Option GoStr) (w : Nat) (cur : Int) (curU : Nat)
    (b : Bool),
    SetField dec (.int w cur) (chars "99999999999999999999") b =
      .fieldErr (.intErr .range) ∧
    SetField dec (.uint w curU) (chars "99999999999999999999") b =
      .fieldErr (.intErr .range) ∧
    (∀ s e, goParseInt64 s = .error e →
      SetField dec (.int w cur) s b = .fieldErr (.intErr e)) ∧
    (∀ s e, goParseUint64 s = .error e →
      SetField dec (.uint w curU) s b = .fieldErr (.intErr e)) ∧
    (∀ s n, goParseInt64 s = .ok n →
      SetField dec (.int w cur) s b = .ok (.int w (wrapInt w n))) ∧
    (∀ s n, goParseUint64 s = .ok n →
      SetField dec (.uint w curU) s b = .ok (.uint w (wrapUint w n))) ∧
    (0 < w → ∀ n : Int,
      (-(2 ^ (w - 1)) ≤ wrapInt w n ∧ wrapInt w n < 2 ^ (w - 1)) ∧
      ((-(2 ^ (w - 1)) ≤ n ∧ n < 2 ^ (w - 1)) → wrapInt w n = n) ∧
      (2 ^ w : Int) ∣ n - wrapInt w n) ∧
    (∀ n : Nat,
      wrapUint w n < 2 ^ w ∧ (n < 2 ^ w → wrapUint w n = n) ∧
      2 ^ w * (n / 2 ^ w) + wrapUint w n = n) := by
  intro dec w cur curU b
  refine ⟨rfl, rfl, ?_, ?_, ?_, ?_, ?_, ?_⟩
  · intro s e h
    simp [SetField, h]
  · intro s e h
    simp [SetField, h]
  · intro s n h
    simp [SetField, h]
  · intro s n h
    simp [SetField, h]
  · intro hw n
    exact ⟨wrapInt_bounds w hw n, fun hn => wrapInt_eq_self w hw n hn.1 hn.2,
      wrapInt_congruent w n⟩
  · intro n
    exact ⟨Nat.mod_lt n (pow_pos (by norm_num) w), Nat.mod_eq_of_lt,
      Nat.div_add_mod n (2 ^ w)⟩

/-- Witness for C3 at concrete inputs: `"300"` parses to 300 and is
stored in an `int8` field as `wrapInt 8 300 = 44` and in a `uint8` field
as `wrapUint 8 300 = 44`; `"abc"` (signed) and `"-1"` (unsigned) fail
with format errors; and the truncation bounds hold at width 8. -/
theorem C3_witness :
    goParseInt64 (chars "300") = Except.ok 300 ∧
    SetField dec0 (GoValue.int 8 0) (chars "300") false = .ok (.int 8 (wrapInt 8 300)) ∧
    wrapInt 8 300 = 44 ∧
    goParseUint64 (chars "300") = Except.ok 300 ∧
    SetField dec0 (GoValue.uint 8 0) (chars "300") false =
      .ok (.uint 8 (wrapUint 8 300)) ∧
    wrapUint 8 300 = 44 ∧
    goParseInt64 (chars "abc") = Except.error .malformed ∧
    SetField dec0 (GoValue.int 8 0) (chars "abc") false =
      .fieldErr (.intErr .malformed) ∧
    goParseUint64 (chars "-1") = Except.error .malformed ∧
    SetField dec0 (GoValue.uint 8 0) (chars "-1") false =
      .fieldErr (.intErr .malformed) ∧
    (-(2 ^ 7 : Int) ≤ wrapInt 8 300 ∧ wrapInt 8 300 < 2 ^ 7) ∧
    wrapUint 8 300 < 2 ^ 8 := by
  refine ⟨rfl, (C3_theorem dec0 8 0 0 false).2.2.2.2.1 _ _ rfl, by decide,
    rfl, (C3_theorem dec0 8 0 0 false).2.2.2.2.2.1 _ _ rfl, by decide,
    rfl, (C3_theorem dec0 8 0 0 false).2.2.1 _ _ rfl,
    rfl, (C3_theorem dec0 8 0 0 false).2.2.2.1 _ _ rfl,
    ((C3_theorem dec0 8 0 0 false).2.2.2.2.2.2.1 (by decide) 300).1,
    ((C3_theorem dec0 8 0 0 false).2.2.2.2.2.2.2 300).1⟩

/-- Claim C9 (code bug): for a pointer field whose type implements
`encoding.TextUnmarshaler`, a failing `UnmarshalText` is returned as an
error (no crash), but a successful decode panics inside
`reflect.Value.Set` — the source assigns the pointed-to value of type `T`
to the field of type `*T` — so the decoded value is never assigned. -/
theorem C9_theorem :
    SetField decId (GoValue.custom (chars "IP") none) (chars "x") true = .panicked ∧
    SetField decFail (GoValue.custom (chars "IP") none) (chars "x") true =
      .fieldErr .customErr := by
  refine ⟨rfl, rfl⟩

/-! ## Pipeline theorems -/

/-- Skipping a field leaves it in front of the recursive result. -/
theorem passField_none (dec : GoStr → Option GoStr) (ex : Bool)
    (mk : FieldErr → PipeError) (he : Bool) (fd : FieldDesc) (v : GoValue)
    (r : PassResult) (restCfg : List CfgField) :
    passField dec ex mk he none fd v r restCfg =
      ⟨(fd, v) :: r.cfg, r.help, r.err, r.panicked⟩ := rfl

/-- A successful coercion replaces the field's value in front of the
recursive result. -/
theorem passField_ok (dec : GoStr → Option GoStr) (ex : Bool) (mk : FieldErr → PipeError)
    (he : Bool) (fd : FieldDesc) (v v2 : GoValue) (fv : GoStr) (r : PassResult)
    (restCfg : List CfgField) (h : SetField dec v fv ex = .ok v2) :
    passField dec ex mk he (some fv) fd v r restCfg =
      ⟨(fd, v2) :: r.cfg, r.help, r.err, r.panicked⟩ := by
  simp [passField, h]

/-- A failed coercion stops the pass: the field and the remaining fields
keep their values, usage is rendered iff the pass renders on error, and
the wrapped error is propagated. -/
theorem passField_err (dec : GoStr → Option GoStr) (ex : Bool) (mk : FieldErr → PipeError)
    (he : Bool) (fd : FieldDesc) (v : GoValue) (fv : GoStr) (e : FieldErr) (r : PassResult)
    (restCfg : List CfgField) (h : SetField dec v fv ex = .fieldErr e) :
    passField dec ex mk he (some fv) fd v r restCfg =
      ⟨(fd, v) :: restCfg, he, some (mk e), false⟩ := by
  simp [passField, h]

/-- A panicking coercion escapes the pass without an error or a usage
render. -/
theorem passField_panic (dec : GoStr → Option GoStr) (ex : Bool) (mk : FieldErr → PipeError)
    (he : Bool) (fd : FieldDesc) (v : GoValue) (fv : GoStr) (r : PassResult)
    (restCfg : List CfgField) (h : SetField dec v fv ex = .panicked) :
    passField dec ex mk he (some fv) fd v r restCfg =
      ⟨(fd, v) :: restCfg, false, none, true⟩ := by
  simp [passField, h]

/-- A pass that does not render usage on error never renders usage. -/
theorem runPass_help_false (dec : GoStr → Option GoStr) (ex : Bool)
    (hitOf : FieldDesc → Option GoStr) (mkErrOf : FieldDesc → FieldErr → PipeError) :
    ∀ cfg, (runPass dec ex hitOf mkErrOf false cfg).help = false := by
  intro cfg
  induction cfg with
  | nil => rfl
  | cons hd rest ih =>
    obtain ⟨fd, v⟩ := hd
    rw [runPass]
    cases hhit : hitOf fd with
    | none => rw [passField_none]; exact ih
    | some fv =>
      cases hsf : SetField dec v fv ex with
      | ok v2 => rw [passField_ok dec ex _ _ fd v v2 fv _ rest hsf]; exact ih
      | fieldErr e => rw [passField_err dec ex _ _ fd v fv e _ rest hsf]
      | panicked => rw [passField_panic dec ex _ _ fd v fv _ rest hsf]

/-- An error propagated by a pass comes from one of the fields, wrapped
by the pass's error builder, and a pass that renders usage on error has
rendered it. -/
theorem runPass_err_shape (dec : GoStr → Option GoStr) (ex : Bool)
    (hitOf : FieldDesc → Option GoStr) (mkErrOf : FieldDesc → FieldErr → PipeError)
    (he : Bool) :
    ∀ cfg e, (runPass dec ex hitOf mkErrOf he cfg).err = some e →
      (runPass dec ex hitOf mkErrOf he cfg).help = he ∧
      ∃ fd fe, fd ∈ cfg.map Prod.fst ∧ e = mkErrOf fd fe := by
  intro cfg
  induction cfg with
  | nil => intro e h; simp [runPass] at h
  | cons hd rest ih =>
    obtain ⟨fd, v⟩ := hd
    intro e h
    rw [runPass] at h ⊢
    cases hhit : hitOf fd with
    | none =>
      rw [hhit] at h
      rw [passField_none] at h ⊢
      obtain ⟨hh, fd2, fe, hm, hee⟩ := ih e h
      exact ⟨hh, fd2, fe, by simp [hm], hee⟩
    | some fv =>
      rw [hhit] at h
      cases hsf : SetField dec v fv ex with
      | ok v2 =>
        rw [passField_ok dec ex _ _ fd v v2 fv _ rest hsf] at h ⊢
        obtain ⟨hh, fd2, fe, hm, hee⟩ := ih e h
        exact ⟨hh, fd2, fe, by simp [hm], hee⟩
      | fieldErr e2 =>
        rw [passField_err dec ex _ _ fd v fv e2 _ rest hsf] at h ⊢
        simp at h
        exact ⟨rfl, fd, e2, by simp, h.symm⟩
      | panicked =>
        rw [passField_panic dec ex _ _ fd v fv _ rest hsf] at h
        simp at h

/-- A field the pass does not hit is left unchanged by the whole pass. -/
theorem runPass_skip (dec : GoStr → Option GoStr) (ex : Bool)
    (hitOf : FieldDesc → Option GoStr) (mkErrOf : FieldDesc → FieldErr → PipeError)
    (he : Bool) :
    ∀ (cfg : List CfgField) (i : Nat) (fd : FieldDesc) (v : GoValue),
      cfg[i]? = some (fd, v) → hitOf fd = none →
      (runPass dec ex hitOf mkErrOf he cfg).cfg[i]? = some (fd, v) := by
  intro cfg
  induction cfg with
  | nil => intro i fd v h _; simp at h
  | cons hd rest ih =>
    obtain ⟨fd0, v0⟩ := hd
    intro i fd v hget hnone
    rw [runPass]
    cases i with
    | zero =>
      simp only [List.getElem?_cons_zero, Option.some.injEq] at hget
      cases hget
      rw [hnone, passField_none]
      simp
    | succ j =>
      simp only [List.getElem?_cons_succ] at hget
      cases hhit : hitOf fd0 with
      | none =>
        rw [passField_none]
        simpa using ih j fd v hget hnone
      | some fv =>
        cases hsf : SetField dec v0 fv ex with
        | ok v2 =>
          rw [passField_ok dec ex _ _ fd0 v0 v2 fv _ rest hsf]
          simpa using ih j fd v hget hnone
        | fieldErr e2 =>
          rw [passField_err dec ex _ _ fd0 v0 fv e2 _ rest hsf]
          simpa using hget
        | panicked =>
          rw [passField_panic dec ex _ _ fd0 v0 fv _ rest hsf]
          simpa using hget

/-- On a one-field configuration, a hit that coerces successfully
replaces the field's value. -/
theorem runPass_hit_single (dec : GoStr → Option GoStr) (ex : Bool)
    (hitOf : FieldDesc → Option GoStr) (mkErrOf : FieldDesc → FieldErr → PipeError)
    (he : Bool) (fd : FieldDesc) (v v2 : GoValue) (fv : GoStr)
    (hhit : hitOf fd = some fv) (hsf : SetField dec v fv ex = .ok v2) :
    (runPass dec ex hitOf mkErrOf he [(fd, v)]).cfg = [(fd, v2)] := by
  rw [runPass, hhit, passField_ok dec ex _ _ fd v v2 fv _ [] hsf]
  rfl

/-- The help scan finds exactly the literal tokens `--help` and `-h`. -/
theorem hasHelpToken_iff : ∀ args : List GoStr,
    hasHelpToken args = true ↔ chars "--help" ∈ args ∨ chars "-h" ∈ args := by
  intro args
  induction args with
  | nil => simp [hasHelpToken]
  | cons a rest ih =>
    rw [hasHelpToken]
    by_cases hc : a = chars "--help" ∨ a = chars "-h"
    · simp only [if_pos hc, List.mem_cons, true_iff]
      rcases hc with hc | hc
      · exact Or.inl (Or.inl hc.symm)
      · exact Or.inr (Or.inl hc.symm)
    · simp only [if_neg hc, ih, List.mem_cons]
      push_neg at hc
      obtain ⟨h1, h2⟩ := hc
      constructor
      · rintro (h | h)
        · exact Or.inl (Or.inr h)
        · exact Or.inr (Or.inr h)
      · rintro ((h | h) | (h | h))
        · exact absurd h.symm h1
        · exact Or.inl h
        · exact absurd h.symm h2
        · exact Or.inr h

/-- Claim C4: when some raw argument is literally `--help` or `-h`, and
the defaults and environment passes complete without error, `ParseAll`
renders the usage text and returns immediately with no positional
arguments, no flag mapping and no error; the flags pass never runs, so
the configuration record holds exactly what the defaults and environment
passes left in it. -/
theorem C4_theorem : ∀ (dec : GoStr → Option GoStr) (env : EnvMap) (cfg : List CfgField)
    (args : List GoStr),
    (hasHelpToken args = true ↔ chars "--help" ∈ args ∨ chars "-h" ∈ args) ∧
    ((SetDefaults dec cfg).err = none → (SetDefaults dec cfg).panicked = false →
      (ParseEnv dec env (SetDefaults dec cfg).cfg).err = none →
      (ParseEnv dec env (SetDefaults dec cfg).cfg).panicked = false →
      hasHelpToken args = true →
      ParseAll dec env cfg args =
        ⟨(ParseEnv dec env (SetDefaults dec cfg).cfg).cfg, true, none, none, none, false⟩) := by
  intro dec env cfg args
  refine ⟨hasHelpToken_iff args, ?_⟩
  intro h1 h2 h3 h4 h5
  simp only [ParseAll, h1, h2, h3, h4, h5]
  simp

/-- Witness for C4 on the `ParseAll` test scenario: defaults
`8080`/`localhost`/`info`, environment `PORT_NUMBER=3000`
`HOST_NAME=example.com`, arguments `--log-level=debug --help`.  The
record keeps the defaults- and environment-applied values, usage is
rendered, and no positionals, flags or error are returned. -/
theorem C4_witness :
    (SetDefaults dec0 cfgC4).err = none ∧ (SetDefaults dec0 cfgC4).panicked = false ∧
    (ParseEnv dec0 envC4 (SetDefaults dec0 cfgC4).cfg).err = none ∧
    (ParseEnv dec0 envC4 (SetDefaults dec0 cfgC4).cfg).panicked = false ∧
    hasHelpToken [chars "--log-level=debug", chars "--help"] = true ∧
    ParseAll dec0 envC4 cfgC4 [chars "--log-level=debug", chars "--help"] =
      ⟨[(fdPortNumber, .int 64 3000), (fdHostName, .str (chars "example.com")),
        (fdLogLevel, .str (chars "info"))], true, none, none, none, false⟩ := by
  refine ⟨by decide, by decide, by decide, by decide, by decide, ?_⟩
  have h := (C4_theorem dec0 envC4 cfgC4 [chars "--log-level=debug", chars "--help"]).2
    (by decide) (by decide) (by decide) (by decide) (by decide)
  exact h.trans (by decide)

/-- Claim C6: a field's environment variable is its `env` tag when
present, else the constant-case of its identifier; a field whose
variable is unset is left unchanged by the whole environment pass; a set
variable's coerced value replaces the field's value; and concretely,
with default `8080`, environment `PORT=3000` and no matching flag, the
field resolves to `3000`. -/
theorem C6_theorem : ∀ (dec : GoStr → Option GoStr) (env : EnvMap) (cfg : List CfgField)
    (i : Nat) (fd : FieldDesc) (v : GoValue),
    (envName fd = if fd.tagEnv = [] then toConstantCase fd.name else fd.tagEnv) ∧
    (cfg[i]? = some (fd, v) → lookupEnv env (envName fd) = none →
      (ParseEnv dec env cfg).cfg[i]? = some (fd, v)) ∧
    (∀ ev v2, lookupEnv env (envName fd) = some ev → SetField dec v ev true = .ok v2 →
      (ParseEnv dec env [(fd, v)]).cfg = [(fd, v2)]) ∧
    ParseAll dec0 envC6 cfgC6 [] =
      ⟨[(fdPortC6, .int 64 3000)], false, some [], some [], none, false⟩ := by
  intro dec env cfg i fd v
  refine ⟨rfl, ?_, ?_, by decide⟩
  · intro hget hnone
    exact runPass_skip dec true _ _ true cfg i fd v hget hnone
  · intro ev v2 h1 h2
    exact runPass_hit_single dec true _ _ true fd v v2 ev h1 h2

/-- Witness for C6 at concrete inputs: `HostName` has no `env` tag and
`HOST_NAME` is unset, so the field keeps `localhost` through the
environment pass; `PortNumber` has tag `env:"PORT"`, `PORT=3000` is set,
and the field's `8080` is overridden by `3000`. -/
theorem C6_witness :
    envName fdHostName = chars "HOST_NAME" ∧
    lookupEnv envC6 (envName fdHostName) = none ∧
    (ParseEnv dec0 envC6 [(fdHostName, .str (chars "localhost"))]).cfg[0]? =
      some (fdHostName, .str (chars "localhost")) ∧
    lookupEnv envC6 (envName fdPortC6) = some (chars "3000") ∧
    (ParseEnv dec0 envC6 [(fdPortC6, .int 64 8080)]).cfg = [(fdPortC6, .int 64 3000)] := by
  refine ⟨by decide, by decide, ?_, by decide, ?_⟩
  · exact (C6_theorem dec0 envC6 [(fdHostName, .str (chars "localhost"))] 0 fdHostName
      (.str (chars "localhost"))).2.1 (by decide) (by decide)
  · exact (C6_theorem dec0 envC6 [] 0 fdPortC6 (.int 64 8080)).2.2.1 (chars "3000")
      (.int 64 3000) (by decide) (by decide)

/-- Claim C7: the flags pass derives the long key from the `flag` tag or
the kebab-case of the identifier, looks the `short` tag key up first and
the long key only if the short key is absent, and a field neither of
whose keys is in the mapping is left unchanged by the whole pass. -/
theorem C7_theorem : ∀ (dec : GoStr → Option GoStr) (flags : FlagMap) (cfg : List CfgField)
    (i : Nat) (fd : FieldDesc) (v : GoValue),
    (longFlagName fd = if fd.tagFlag = [] then toKebabCase fd.name else fd.tagFlag) ∧
    (∀ fv v2, lookupFlag flags fd.tagShort = some fv → SetField dec v fv true = .ok v2 →
      (SetFlags dec flags [(fd, v)]).cfg = [(fd, v2)]) ∧
    (∀ fv v2, lookupFlag flags fd.tagShort = none →
      lookupFlag flags (longFlagName fd) = some fv → SetField dec v fv true = .ok v2 →
      (SetFlags dec flags [(fd, v)]).cfg = [(fd, v2)]) ∧
    (cfg[i]? = some (fd, v) → lookupFlag flags fd.tagShort = none →
      lookupFlag flags (longFlagName fd) = none →
      (SetFlags dec flags cfg).cfg[i]? = some (fd, v)) := by
  intro dec flags cfg i fd v
  refine ⟨rfl, ?_, ?_, ?_⟩
  · intro fv v2 h1 h2
    refine runPass_hit_single dec true _ _ true fd v v2 fv ?_ h2
    simp only [h1]
  · intro fv v2 h0 h1 h2
    refine runPass_hit_single dec true _ _ true fd v v2 fv ?_ h2
    simp only [h0, h1]
  · intro hget h1 h2
    refine runPass_skip dec true _ _ true cfg i fd v hget ?_
    simp only [h1, h2]

/-- Witness for C7 at concrete inputs: with both `p -> 9090` and
`port-number -> 7070` in the mapping, the field tagged `short:"p"` takes
`9090` (the short key wins); with an empty mapping the field is left
unchanged. -/
theorem C7_witness :
    lookupFlag flagsC7 fdPortC7.tagShort = some (chars "9090") ∧
    lookupFlag flagsC7 (longFlagName fdPortC7) = some (chars "7070") ∧
    (SetFlags dec0 flagsC7 [(fdPortC7, .int 64 0)]).cfg = [(fdPortC7, .int 64 9090)] ∧
    (SetFlags dec0 [] [(fdPortC7, .int 64 0)]).cfg[0]? = some (fdPortC7, .int 64 0) := by
  refine ⟨by decide, by decide, ?_, ?_⟩
  · exact (C7_theorem dec0 flagsC7 [] 0 fdPortC7 (.int 64 0)).2.1 (chars "9090")
      (.int 64 9090) (by decide) (by decide)
  · exact (C7_theorem dec0 [] [(fdPortC7, .int 64 0)] 0 fdPortC7 (.int 64 0)).2.2.2
      (by decide) (by decide) (by decide)

/-- Claim C8: the defaults pass never renders usage text and propagates
its failures as field-naming errors, while a failure in the environment
or flags pass renders the usage text and propagates an error naming the
offending environment variable or long flag of one of the fields. -/
theorem C8_theorem : ∀ (dec : GoStr → Option GoStr) (env : EnvMap) (flags : FlagMap)
    (cfg : List CfgField) (e : PipeError),
    (SetDefaults dec cfg).help = false ∧
    ((SetDefaults dec cfg).err = some e →
      ∃ fd fe, fd ∈ cfg.map Prod.fst ∧ e = .defaultErr fd.name fe) ∧
    ((ParseEnv dec env cfg).err = some e →
      (ParseEnv dec env cfg).help = true ∧
      ∃ fd fe, fd ∈ cfg.map Prod.fst ∧ e = .envErr (envName fd) fe) ∧
    ((SetFlags dec flags cfg).err = some e →
      (SetFlags dec flags cfg).help = true ∧
      ∃ fd fe, fd ∈ cfg.map Prod.fst ∧ e = .flagErr (longFlagName fd) fe) := by
  intro dec env flags cfg e
  refine ⟨runPass_help_false dec false _ _ cfg, ?_, ?_, ?_⟩
  · intro h
    exact (runPass_err_shape dec false _ _ false cfg e h).2
  · intro h
    exact runPass_err_shape dec true _ _ true cfg e h
  · intro h
    exact runPass_err_shape dec true _ _ true cfg e h

/-- Witness for C8 at concrete inputs: a default tag `abc` on an int
field fails with no usage render; environment `PORT=abc` fails with a
usage render and an error naming `PORT`; flag `timeout=thirty` fails
with a usage render and an error naming the long flag `timeout`. -/
theorem C8_witness :
    (SetDefaults dec0 cfgC8).err =
      some (.defaultErr (chars "Timeout") (.intErr .malformed)) ∧
    (SetDefaults dec0 cfgC8).help = false ∧
    (ParseEnv dec0 envC8 cfgC8E).err = some (.envErr (chars "PORT") (.intErr .malformed)) ∧
    (ParseEnv dec0 envC8 cfgC8E).help = true ∧
    (SetFlags dec0 flagsC8 cfgC8F).err =
      some (.flagErr (chars "timeout") (.intErr .malformed)) ∧
    (SetFlags dec0 flagsC8 cfgC8F).help = true := by
  refine ⟨by decide, ?_, by decide, ?_, by decide, ?_⟩
  · exact (C8_theorem dec0 [] [] cfgC8 (.defaultErr (chars "Timeout") (.intErr .malformed))).1
  · exact ((C8_theorem dec0 envC8 [] cfgC8E
      (.envErr (chars "PORT") (.intErr .malformed))).2.2.1 (by decide)).1
  · exact ((C8_theorem dec0 [] flagsC8 cfgC8F
      (.flagErr (chars "timeout") (.intErr .malformed))).2.2.2 (by decide)).1

/-- Claim C10: a pointer field whose pointed-to type is basic (and which
does not implement `TextUnmarshaler`) is rejected by `SetField` with the
unsupported-type error for every input, so a `default` tag, a set
environment variable, or a present flag key each make the corresponding
pass fail; yet `PrintDefaults` lists the field with a `*`-prefixed type
name. -/
theorem C10_theorem : ∀ (dec : GoStr → Option GoStr) (nm v fv : GoStr) (b : Bool)
    (fd : FieldDesc) (env : EnvMap) (flags : FlagMap),
    SetField dec (.ptrBasic nm) v b = .fieldErr .unsupported ∧
    (fd.tagDefault ≠ [] →
      (SetDefaults dec [(fd, .ptrBasic nm)]).err =
        some (.defaultErr fd.name .unsupported)) ∧
    (lookupEnv env (envName fd) = some fv →
      (ParseEnv dec env [(fd, .ptrBasic nm)]).err =
          some (.envErr (envName fd) .unsupported) ∧
        (ParseEnv dec env [(fd, .ptrBasic nm)]).help = true) ∧
    ((lookupFlag flags fd.tagShort = some fv ∨
        (lookupFlag flags fd.tagShort = none ∧
          lookupFlag flags (longFlagName fd) = some fv)) →
      (SetFlags dec flags [(fd, .ptrBasic nm)]).err =
          some (.flagErr (longFlagName fd) .unsupported) ∧
        (SetFlags dec flags [(fd, .ptrBasic nm)]).help = true) ∧
    (helpEntry fd (.ptrBasic nm)).longPart =
      chars "--" ++ toKebabCase fd.name ++ [' '] ++ ('*' :: nm) := by
  intro dec nm v fv b fd env flags
  refine ⟨rfl, ?_, ?_, ?_, rfl⟩
  · intro hdef
    rw [SetDefaults, runPass, if_neg hdef,
      passField_err dec false _ _ fd (.ptrBasic nm) fd.tagDefault .unsupported _ [] rfl]
  · intro henv
    rw [ParseEnv, runPass, henv,
      passField_err dec true _ _ fd (.ptrBasic nm) fv .unsupported _ [] rfl]
    exact ⟨rfl, rfl⟩
  · intro hflag
    rw [SetFlags, runPass]
    rcases hflag with hs | ⟨hs, hl⟩
    · rw [hs, passField_err dec true _ _ fd (.ptrBasic nm) fv .unsupported _ [] rfl]
      exact ⟨rfl, rfl⟩
    · rw [hs, hl, passField_err dec true _ _ fd (.ptrBasic nm) fv .unsupported _ [] rfl]
      exact ⟨rfl, rfl⟩

/-- Witness for C10 on the `PrintDefaults` test configuration: the
`Timeout *int` field rejects every source of values, and the rendered
help page lists it as `--timeout *int`, reproducing the expected test
output verbatim. -/
theorem C10_witness :
    SetField dec0 (GoValue.ptrBasic (chars "int")) (chars "5") true =
      .fieldErr .unsupported ∧
    (SetDefaults dec0 [(⟨chars "Timeout", chars "t", [], [], chars "30",
        chars "Timeout in seconds"⟩, GoValue.ptrBasic (chars "int"))]).err =
      some (.defaultErr (chars "Timeout") .unsupported) ∧
    (ParseEnv dec0 [(chars "TIMEOUT", chars "5")]
        [(fdTimeout, GoValue.ptrBasic (chars "int"))]).err =
      some (.envErr (chars "TIMEOUT") .unsupported) ∧
    (SetFlags dec0 [(chars "t", chars "5")]
        [(fdTimeout, GoValue.ptrBasic (chars "int"))]).err =
      some (.flagErr (chars "timeout") .unsupported) ∧
    printDefaultsLines cfgPD =
      [chars "Usage:",
       chars "  -p --port-number int   Port to listen on (default 8080)",
       chars "     --host-name string  Host address (default localhost)",
       chars "  -v --verbose bool      Verbose mode",
       chars "  -t --timeout *int      Timeout in seconds"] := by
  refine ⟨(C10_theorem dec0 (chars "int") (chars "5") (chars "5") true fdTimeout [] []).1,
    ?_, ?_, ?_, by decide⟩
  · exact (C10_theorem dec0 (chars "int") (chars "5") (chars "5") true
      ⟨chars "Timeout", chars "t", [], [], chars "30", chars "Timeout in seconds"⟩ [] []).2.1
      (by decide)
  · exact ((C10_theorem dec0 (chars "int") (chars "5") (chars "5") true fdTimeout
      [(chars "TIMEOUT", chars "5")] []).2.2.1 (by decide)).1
  · exact ((C10_theorem dec0 (chars "int") (chars "5") (chars "5") true fdTimeout []
      [(chars "t", chars "5")]).2.2.2.1 (Or.inl (by decide))).1
